import Mathlib

/-
  Verification development for the CV2 visualization plugin
  (scene-graph layout and compositing engine).

  Shallow embedding of:
  - gui_component.py : GuiComponent._calculate_size, width/height properties,
    _blend_canvas_to_surface, render, add_child / remove_child
  - gui_grid.py : GUIGrid.__init__, add_child_to_grid, add_child_auto,
    remove_child_from_grid, resize_grid
-/

namespace CV2Viz

/-! ### Size specification resolver (gui_component.py, `_calculate_size`)

A width/height specification is an int, a callable, or a string
(`Union[int, Callable[[int], int], str]`). -/

inductive SizeSpec where
  | fixed (n : Int)
  | fn (f : Int → Int)
  | expr (s : String)

/-- Models Python `isinstance(spec, int)`. -/
def SizeSpec.isInt : SizeSpec → Bool
  | .fixed _ => true
  | _ => false

/-- Value of a fixed-integer spec; the default branch is never reached where used. -/
def SizeSpec.intVal : SizeSpec → Int
  | .fixed n => n
  | _ => 0

/-- Models Python `"auto" in spec` (substring containment of the literal token). -/
def containsAuto : List Char → Bool
  | [] => false
  | 'a' :: 'u' :: 't' :: 'o' :: _ => true
  | _ :: rest => containsAuto rest

/-- Models Python `spec.replace("auto", str(children_total))`: replaces every
non-overlapping occurrence of the token, scanning left to right. -/
def substAuto : List Char → List Char → List Char
  | [], _ => []
  | 'a' :: 'u' :: 't' :: 'o' :: rest, v => v ++ substAuto rest v
  | c :: rest, v => c :: substAuto rest v

/-- Decimal digit character. -/
def digitChar (d : Nat) : Char := Char.ofNat (48 + d)

/-- Decimal digits of a natural number, most significant first (fuel-based). -/
def natCharsAux : Nat → Nat → List Char
  | 0, n => [digitChar n]
  | f + 1, n => if n < 10 then [digitChar n] else natCharsAux f (n / 10) ++ [digitChar (n % 10)]

def natChars (n : Nat) : List Char := natCharsAux n n

/-- Models Python `str(i)` for an integer. -/
def intChars (i : Int) : List Char :=
  if i < 0 then '-' :: natChars i.natAbs else natChars i.natAbs

/-! Arithmetic expression evaluation. The source calls Python `eval` on the
substituted string and truncates the result with `int(...)`, catching every
exception. We model the arithmetic fragment of `eval` with Python's grammar
and precedence: integer and float literals including e-notation, the binary
operators plus, minus, times, true division, floor division, modulo and
power, unary signs, and parentheses, evaluated over ℚ. A `none` result
models an exception inside the source's `try`: a lexical or syntax error,
division, floor-division or modulo by zero, or zero raised to a negative
power. Deliberate approximations, each disclosed and kept away from the
theorems below: decimal literals are exact here while Python rounds them to
binary floats, so no theorem depends on a fractionally-valued result; a
power with a fractional exponent maps to `none`, although Python computes a
float for a nonnegative base, so the fallback theorem carries a
no-power-operator hypothesis; expressions using names or other
non-arithmetic syntax map to `none`, which matches the source's outcome on
the character set admitted by the fallback theorem, since a leftover name
formed from those letters raises NameError and lands in the same `except`
branch. -/

inductive Tok where
  | num (q : ℚ)
  | add
  | sub
  | mul
  | div
  | fdiv
  | mod
  | pow
  | lpar
  | rpar

/-- Numeric value of a digit list. -/
def digitsVal (l : List Char) : Nat :=
  l.foldl (fun a c => 10 * a + (c.toNat - 48)) 0

/-- Exponent digits of an e-notation literal (empty digits are a syntax
error, as in Python). -/
def lexExpDigits (q : ℚ) (sgn : Int) (l : List Char) : Option (ℚ × List Char) :=
  let p := l.span Char.isDigit
  if p.1.isEmpty then none
  else some (q * (10 : ℚ) ^ (sgn * (digitsVal p.1 : Int)), p.2)

/-- Optional sign of an e-notation exponent. -/
def lexExpTail (q : ℚ) (l : List Char) : Option (ℚ × List Char) :=
  match l with
  | '+' :: rest => lexExpDigits q 1 rest
  | '-' :: rest => lexExpDigits q (-1) rest
  | rest => lexExpDigits q 1 rest

/-- Optional e-notation exponent after a numeric literal. -/
def lexExp (q : ℚ) (l : List Char) : Option (ℚ × List Char) :=
  match l with
  | 'e' :: rest => lexExpTail q rest
  | 'E' :: rest => lexExpTail q rest
  | _ => some (q, l)

/-- Lex one numeric literal (digits, optional point, digits, optional
e-notation exponent). -/
def lexNum (l : List Char) : Option (ℚ × List Char) :=
  let p := l.span Char.isDigit
  match p.2 with
  | '.' :: rest2 =>
      let q := rest2.span Char.isDigit
      if p.1.isEmpty && q.1.isEmpty then none
      else lexExp ((digitsVal p.1 : ℚ) + (digitsVal q.1 : ℚ) / ((10 : ℚ) ^ q.1.length)) q.2
  | _ => if p.1.isEmpty then none else lexExp ((digitsVal p.1 : ℚ)) p.2

/-- Tokenizer (fuel-based); adjacent star pairs and slash pairs lex as the
power and floor-division operators, as in Python; any character outside the
arithmetic fragment makes the whole evaluation fail. -/
def tokenize : Nat → List Char → Option (List Tok)
  | _, [] => some []
  | 0, _ => none
  | f + 1, c :: rest =>
    if c = ' ' then tokenize f rest
    else if c = '+' then (tokenize f rest).map (Tok.add :: ·)
    else if c = '-' then (tokenize f rest).map (Tok.sub :: ·)
    else if c = '*' then
      match rest with
      | '*' :: rest2 => (tokenize f rest2).map (Tok.pow :: ·)
      | _ => (tokenize f rest).map (Tok.mul :: ·)
    else if c = '/' then
      match rest with
      | '/' :: rest2 => (tokenize f rest2).map (Tok.fdiv :: ·)
      | _ => (tokenize f rest).map (Tok.div :: ·)
    else if c = '%' then (tokenize f rest).map (Tok.mod :: ·)
    else if c = '(' then (tokenize f rest).map (Tok.lpar :: ·)
    else if c = ')' then (tokenize f rest).map (Tok.rpar :: ·)
    else if c.isDigit || c = '.' then
      match lexNum (c :: rest) with
      | some (q, rest2) => (tokenize f rest2).map (Tok.num q :: ·)
      | none => none
    else none

mutual

/-- Parse a sum-level expression. -/
def parseE : Nat → List Tok → Option (ℚ × List Tok)
  | 0, _ => none
  | f + 1, ts =>
    match parseT f ts with
    | none => none
    | some (v, ts1) => parseEtail f v ts1

/-- Consume trailing `+ term` / `- term` parts. -/
def parseEtail : Nat → ℚ → List Tok → Option (ℚ × List Tok)
  | 0, _, _ => none
  | f + 1, v, ts =>
    match ts with
    | Tok.add :: ts2 =>
      match parseT f ts2 with
      | none => none
      | some (w, ts3) => parseEtail f (v + w) ts3
    | Tok.sub :: ts2 =>
      match parseT f ts2 with
      | none => none
      | some (w, ts3) => parseEtail f (v - w) ts3
    | _ => some (v, ts)

/-- Parse a product-level term (operands are unary expressions). -/
def parseT : Nat → List Tok → Option (ℚ × List Tok)
  | 0, _ => none
  | f + 1, ts =>
    match parseU f ts with
    | none => none
    | some (v, ts1) => parseTtail f v ts1

/-- Consume trailing times / true-division / floor-division / modulo parts,
left-associatively; a zero right operand fails (models Python
ZeroDivisionError, swallowed by the caller's `except`); floor division and
modulo use Python's floor-based semantics. -/
def parseTtail : Nat → ℚ → List Tok → Option (ℚ × List Tok)
  | 0, _, _ => none
  | f + 1, v, ts =>
    match ts with
    | Tok.mul :: ts2 =>
      match parseU f ts2 with
      | none => none
      | some (w, ts3) => parseTtail f (v * w) ts3
    | Tok.div :: ts2 =>
      match parseU f ts2 with
      | none => none
      | some (w, ts3) => if w = 0 then none else parseTtail f (v / w) ts3
    | Tok.fdiv :: ts2 =>
      match parseU f ts2 with
      | none => none
      | some (w, ts3) =>
        if w = 0 then none else parseTtail f ((⌊v / w⌋ : ℤ) : ℚ) ts3
    | Tok.mod :: ts2 =>
      match parseU f ts2 with
      | none => none
      | some (w, ts3) =>
        if w = 0 then none else parseTtail f (v - w * ((⌊v / w⌋ : ℤ) : ℚ)) ts3
    | _ => some (v, ts)

/-- Parse a unary expression: optional signs over a power expression (in
Python the power operator binds tighter than a unary sign on its left). -/
def parseU : Nat → List Tok → Option (ℚ × List Tok)
  | 0, _ => none
  | f + 1, ts =>
    match ts with
    | Tok.sub :: ts2 =>
      match parseU f ts2 with
      | none => none
      | some (w, ts3) => some (-w, ts3)
    | Tok.add :: ts2 => parseU f ts2
    | _ => parseP f ts

/-- Parse a power expression: an atom with an optional right-associative
power whose right operand is again unary, as in Python. An integer exponent
is computed exactly (zero to a negative power models ZeroDivisionError); a
fractional exponent maps to failure — a disclosed approximation, since
Python computes a float for a nonnegative base. -/
def parseP : Nat → List Tok → Option (ℚ × List Tok)
  | 0, _ => none
  | f + 1, ts =>
    match parseA f ts with
    | none => none
    | some (v, ts1) =>
      match ts1 with
      | Tok.pow :: ts2 =>
        match parseU f ts2 with
        | none => none
        | some (w, ts3) =>
          if w.den = 1 then
            if v = 0 ∧ w.num < 0 then none else some (v ^ w.num, ts3)
          else none
      | _ => some (v, ts1)

/-- Parse an atom: numeral or parenthesised expression. -/
def parseA : Nat → List Tok → Option (ℚ × List Tok)
  | 0, _ => none
  | f + 1, ts =>
    match ts with
    | Tok.num q :: ts2 => some (q, ts2)
    | Tok.lpar :: ts2 =>
      match parseE f ts2 with
      | some (v, Tok.rpar :: ts3) => some (v, ts3)
      | _ => none
    | _ => none

end

/-- Evaluate an arithmetic expression string; `none` models any exception
raised inside the source's `try` block. -/
def evalArith (l : List Char) : Option ℚ :=
  match tokenize (l.length + 1) l with
  | none => none
  | some ts =>
    match parseE (5 * ts.length + 20) ts with
    | some (v, []) => some v
    | _ => none

/-- Models Python `int(q)`: truncation toward zero. -/
def truncQ (q : ℚ) : Int := if q < 0 then ⌈q⌉ else ⌊q⌋

/-- Embedding of `GuiComponent._calculate_size(spec, children_total)`:
fixed ints are returned unchanged, callables are applied, the string `"auto"`
yields the children total, other strings containing the token are substituted
and evaluated with fallback to the children total on any failure, and every
remaining case returns 0 (the function's final `return 0`). -/
def calcSize : SizeSpec → Int → Int
  | .fixed n, _ => n
  | .fn f, ct => f ct
  | .expr s, ct =>
    if s = "auto" then ct
    else if containsAuto s.toList then
      match evalArith (substAuto s.toList (intChars ct)) with
      | some q => truncQ q
      | none => ct
    else 0

/-! ### Component tree and the width/height properties (gui_component.py) -/

mutual

/-- A component node: `auto_size` flag, width spec, height spec, relative
position, ordered children (`GuiComponent.__init__` fields relevant to
size resolution). -/
inductive Comp where
  | mk (autoSize : Bool) (wspec hspec : SizeSpec) (pos : Int × Int) (children : CompList)

/-- Ordered list of child components. -/
inductive CompList where
  | nil
  | cons (c : Comp) (cs : CompList)

end

def Comp.posX : Comp → Int
  | .mk _ _ _ p _ => p.1

def Comp.posY : Comp → Int
  | .mk _ _ _ p _ => p.2

mutual

/-- Embedding of the `width` property: when `auto_size` is set or the width
spec is not a plain int, recompute from the children's extent via
`_calculate_size`; otherwise return the fixed spec. -/
def compWidth : Comp → Int
  | .mk a ws _ _ cs => if a || !ws.isInt then calcSize ws (childWTotal cs) else ws.intVal

/-- Models `max([child.position[0] + child.width for child in children] + [0])`. -/
def childWTotal : CompList → Int
  | .nil => 0
  | .cons c cs => max (c.posX + compWidth c) (childWTotal cs)

end

mutual

/-- Embedding of the `height` property (same shape as `width`). -/
def compHeight : Comp → Int
  | .mk a _ hs _ cs => if a || !hs.isInt then calcSize hs (childHTotal cs) else hs.intVal

/-- Models `max([child.position[1] + child.height for child in children] + [0])`. -/
def childHTotal : CompList → Int
  | .nil => 0
  | .cons c cs => max (c.posY + compHeight c) (childHTotal cs)

end

/-- A grid component as constructed by `GUIGrid.__init__`: fixed int specs
`cols * cell_width + (cols - 1) * padding` by
`rows * cell_height + (rows - 1) * padding`, with `auto_size` defaulting
to true. -/
def mkGridComp (rows cols cellW cellH padding : Int) (pos : Int × Int)
    (cs : CompList) : Comp :=
  Comp.mk true (.fixed (cols * cellW + (cols - 1) * padding))
    (.fixed (rows * cellH + (rows - 1) * padding)) pos cs

/-! ### Grid layout state machine (gui_grid.py)

Children are identified by elements of a type `α` with decidable equality
(Python compares components by identity). The state carries the fields of
`GUIGrid` that the grid operations read or write: `rows`, `cols`, the cell
pitch, the `_width_spec` / `_height_spec` ints, the generic `children` list,
the `grid_children` assignment list (entries `(child, row, col)` in insertion
order), and each child's stored `position`. -/

structure GridState (α : Type) where
  rows : Int
  cols : Int
  cellW : Int
  cellH : Int
  padding : Int
  widthSpec : Int
  heightSpec : Int
  children : List α
  gridChildren : List (α × Int × Int)
  pos : α → Int × Int

/-- State after `GUIGrid.__init__` (no children yet). -/
def mkGrid {α : Type} (rows cols cellW cellH padding : Int) : GridState α :=
  { rows := rows, cols := cols, cellW := cellW, cellH := cellH, padding := padding
    widthSpec := cols * cellW + (cols - 1) * padding
    heightSpec := rows * cellH + (rows - 1) * padding
    children := [], gridChildren := [], pos := fun _ => (0, 0) }

variable {α : Type} [DecidableEq α]

/-- Embedding of `GUIGrid.add_child_to_grid(child, row, col)`: bounds check
(failure returns `false` and leaves the state unchanged), then set the child's
position, append it to `children` if absent, and record the assignment after
dropping any prior entry for the same child. -/
def addChildToGrid (g : GridState α) (c : α) (row col : Int) : Bool × GridState α :=
  if row ≥ g.rows ∨ col ≥ g.cols ∨ row < 0 ∨ col < 0 then (false, g)
  else
    (true,
      { g with
        pos := fun x =>
          if x = c then (col * (g.cellW + g.padding), row * (g.cellH + g.padding)) else g.pos x
        children := if c ∈ g.children then g.children else g.children ++ [c]
        gridChildren :=
          (g.gridChildren.filter fun e => decide (e.1 ≠ c)) ++ [(c, row, col)] })

/-- Models the occupancy test in `add_child_auto`:
`any(item with matching row and col in grid_children)`. -/
def cellOccupied (g : GridState α) (row col : Int) : Bool :=
  g.gridChildren.any fun e => decide (e.2.1 = row) && decide (e.2.2 = col)

/-- Row-major scan `for row in range(rows): for col in range(cols)` for the
first unoccupied cell. -/
def firstFreeCell (g : GridState α) : Option (Int × Int) :=
  (List.range g.rows.toNat).findSome? fun r =>
    (List.range g.cols.toNat).findSome? fun c =>
      if cellOccupied g (r : Int) (c : Int) then none else some ((r : Int), (c : Int))

/-- Embedding of `GUIGrid.add_child_auto(child)`: place at the first free cell
in row-major order, or return `false` when the grid is full. -/
def addChildAuto (g : GridState α) (c : α) : Bool × GridState α :=
  match firstFreeCell g with
  | some rc => addChildToGrid g c rc.1 rc.2
  | none => (false, g)

/-- Embedding of `GuiComponent.remove_child(child)`: drop the first occurrence
from `children` if present (the parent back-reference is modelled in the
forest state below). -/
def removeChildComp (g : GridState α) (c : α) : GridState α :=
  if c ∈ g.children then { g with children := g.children.erase c } else g

/-- Embedding of `GUIGrid.remove_child_from_grid(child)`: drop the assignment
entry, then `remove_child`. -/
def removeChildFromGrid (g : GridState α) (c : α) : GridState α :=
  removeChildComp { g with gridChildren := g.gridChildren.filter fun e => decide (e.1 ≠ c) } c

/-- One step of the re-add loop in `resize_grid`: keep the old cell if it is
still in bounds, else auto-place, else `remove_child`. -/
def resizeStep (rows cols : Int) (g : GridState α) (e : α × Int × Int) : GridState α :=
  if e.2.1 < rows ∧ e.2.2 < cols then (addChildToGrid g e.1 e.2.1 e.2.2).2
  else
    match addChildAuto g e.1 with
    | (true, g1) => g1
    | (false, g1) => removeChildComp g1 e.1

/-- Embedding of `GUIGrid.resize_grid(rows, cols)`: update capacity, recompute
the fixed size specs from the new pitch, clear `grid_children`, then re-add the
old entries in order via `resizeStep`. -/
def resizeGrid (g : GridState α) (rows cols : Int) : GridState α :=
  let old := g.gridChildren
  let g1 : GridState α :=
    { g with
      rows := rows, cols := cols
      widthSpec := cols * g.cellW + (cols - 1) * g.padding
      heightSpec := rows * g.cellH + (rows - 1) * g.padding
      gridChildren := [] }
  old.foldl (resizeStep rows cols) g1

/-- The grid operations named by the spec, as a small command language. -/
inductive GridOp (α : Type) where
  | addTo (c : α) (row col : Int)
  | addAuto (c : α)
  | removeFromGrid (c : α)
  | resize (rows cols : Int)

def applyGridOp (g : GridState α) : GridOp α → GridState α
  | .addTo c r k => (addChildToGrid g c r k).2
  | .addAuto c => (addChildAuto g c).2
  | .removeFromGrid c => removeChildFromGrid g c
  | .resize r k => resizeGrid g r k

def applyGridOps (g : GridState α) (ops : List (GridOp α)) : GridState α :=
  ops.foldl applyGridOp g

/-! ### Tree attachment state (gui_component.py `add_child` / `remove_child`,
gui_grid.py `add_child_to_grid`)

Nodes are identified by naturals; the state records each node's parent
back-reference and each node's children list. -/

structure Forest where
  par : Nat → Option Nat
  ch : Nat → List Nat

/-- Pointwise function update. -/
def updF {β : Type} (f : Nat → β) (a : Nat) (v : β) : Nat → β :=
  fun x => if x = a then v else f x

/-- Embedding of `GuiComponent.add_child(child)`: when the child is not already
in the list, append it and set its back-reference; otherwise do nothing (the
back-reference is only written inside the membership test's branch). -/
def addChildF (s : Forest) (p c : Nat) : Forest :=
  if c ∈ s.ch p then s
  else { par := updF s.par c (some p), ch := updF s.ch p (s.ch p ++ [c]) }

/-- Embedding of `GuiComponent.remove_child(child)`: when present, remove the
first occurrence and clear the back-reference. -/
def removeChildF (s : Forest) (p c : Nat) : Forest :=
  if c ∈ s.ch p then { par := updF s.par c none, ch := updF s.ch p ((s.ch p).erase c) }
  else s

/-- Tree effect of `GUIGrid.add_child_to_grid` on an in-bounds placement:
`child.parent = self` unconditionally, then append to `children` if absent. -/
def gridAttachF (s : Forest) (p c : Nat) : Forest :=
  { par := updF s.par c (some p)
    ch := if c ∈ s.ch p then s.ch else updF s.ch p (s.ch p ++ [c]) }

inductive ForestOp where
  | attach (p c : Nat)
  | detach (p c : Nat)
  | gridAttach (p c : Nat)

def applyForestOp (s : Forest) : ForestOp → Forest
  | .attach p c => addChildF s p c
  | .detach p c => removeChildF s p c
  | .gridAttach p c => gridAttachF s p c

def applyForestOps (s : Forest) (ops : List ForestOp) : Forest :=
  ops.foldl applyForestOp s

/-- The empty forest: no parents, no children. -/
def initForest : Forest := { par := fun _ => none, ch := fun _ => [] }

/-! ### Raster images and compositing (gui_component.py
`_blend_canvas_to_surface` and `render`)

An image is a height, width, channel count, and a pixel function
(row, column, channel). Only values at indices below the declared bounds
are meaningful; `ImgEqOn` below is the pixel-identical comparison on that
domain. Channel values are 8-bit naturals; the float32 blend arithmetic of
the source is modelled exactly over ℚ (for the coverage values 0 and 255
with opacity 1 used by the claims, float32 arithmetic is exact, so the
models agree byte for byte). -/

structure Img where
  h : Nat
  w : Nat
  ch : Nat
  pix : Nat → Nat → Nat → Nat

/-- Pixel-identical comparison on the declared domain. -/
def ImgEqOn (a b : Img) : Prop :=
  a.h = b.h ∧ a.w = b.w ∧ a.ch = b.ch ∧
    ∀ r < a.h, ∀ c < a.w, ∀ k < a.ch, a.pix r c k = b.pix r c k

/-- The first three channels of a 4-channel image, as a 3-channel image (the
source's `canvas_slice[:, :, :3]`). -/
def rgbOf (a : Img) : Img := { h := a.h, w := a.w, ch := 3, pix := a.pix }

/-- Models `np.max(alpha) == 0` on the coverage channel (channel 3). -/
def allZeroAlpha (a : Img) : Bool :=
  (List.range a.h).all fun r => (List.range a.w).all fun c => a.pix r c 3 == 0

/-- Row `r` of the coverage mask has a nonzero entry. -/
def rowHasAlpha (a : Img) (r : Nat) : Bool :=
  (List.range a.w).any fun c => a.pix r c 3 != 0

/-- Column `c` of the coverage mask has a nonzero entry. -/
def colHasAlpha (a : Img) (c : Nat) : Bool :=
  (List.range a.h).any fun r => a.pix r c 3 != 0

/-- Membership in the `cv2.boundingRect` of the nonzero-coverage mask:
between the first and last rows with coverage and between the first and last
columns with coverage. -/
def inBoundingRect (a : Img) (r c : Nat) : Bool :=
  ((List.range a.h).any fun r1 => decide (r1 ≤ r) && rowHasAlpha a r1) &&
  ((List.range a.h).any fun r2 => decide (r ≤ r2) && rowHasAlpha a r2) &&
  ((List.range a.w).any fun c1 => decide (c1 ≤ c) && colHasAlpha a c1) &&
  ((List.range a.w).any fun c2 => decide (c ≤ c2) && colHasAlpha a c2)

/-- Per-pixel, per-channel blend: scale coverage to the unit interval, apply
component opacity (with clamping) only when opacity is below 1, then
`coverage * fg + (1 - coverage) * bg`, truncated to an integer pixel value
by `astype(np.uint8)`. -/
def blendPix (opacity : ℚ) (a fg bg : Nat) : Nat :=
  let alpha : ℚ :=
    if opacity < 1 then min 1 (max 0 ((a : ℚ) / 255 * opacity)) else (a : ℚ) / 255
  (⌊alpha * (fg : ℚ) + (1 - alpha) * (bg : ℚ)⌋).toNat

/-- Embedding of `GuiComponent._blend_canvas_to_surface(canvas_slice,
target_slice)` with the component's opacity as a parameter: fast path for
same-shaped 3-channel images, BGRA-over-BGR blend restricted to the bounding
rectangle of nonzero coverage (no-op when coverage is all zero), and the
best-effort fallback on the overlapping region for mismatched shapes. -/
def blendCanvasToSurface (opacity : ℚ) (cs ts : Img) : Img :=
  if cs.ch = 3 ∧ ts.ch = 3 ∧ cs.h = ts.h ∧ cs.w = ts.w then cs
  else if cs.ch = 4 ∧ ts.ch = 3 then
    if allZeroAlpha cs then ts
    else
      { h := ts.h, w := ts.w, ch := 3
        pix := fun r c k =>
          if r < ts.h ∧ c < ts.w ∧ inBoundingRect cs r c = true then
            blendPix opacity (cs.pix r c 3) (cs.pix r c k) (ts.pix r c k)
          else ts.pix r c k }
  else
    let h0 := min cs.h ts.h
    let w0 := min cs.w ts.w
    if cs.ch = 3 ∧ ts.ch = 3 then
      { h := ts.h, w := ts.w, ch := ts.ch
        pix := fun r c k => if r < h0 ∧ c < w0 then cs.pix r c k else ts.pix r c k }
    else if cs.ch = 4 ∧ ts.ch = 3 then
      { h := ts.h, w := ts.w, ch := ts.ch
        pix := fun r c k =>
          if r < h0 ∧ c < w0 then blendPix opacity (cs.pix r c 3) (cs.pix r c k) (ts.pix r c k)
          else ts.pix r c k }
    else { h := h0, w := w0, ch := cs.ch, pix := cs.pix }

/-- The own-tile compositing step of `render`: with a canvas present, clip the
anchor plus canvas extent against the target bounds; when the anchor is inside
the target, blend the visible sub-rectangle and write it back; otherwise leave
the target untouched. -/
def renderOwn (opacity : ℚ) (canvas : Option Img) (t : Img) (ax ay : Int) : Img :=
  match canvas with
  | none => t
  | some cv =>
    if 0 ≤ ax ∧ 0 ≤ ay ∧ ax < (t.w : Int) ∧ ay < (t.h : Int) then
      let endX : Int := min (ax + (cv.w : Int)) (t.w : Int)
      let endY : Int := min (ay + (cv.h : Int)) (t.h : Int)
      let sh := (endY - ay).toNat
      let sw := (endX - ax).toNat
      let cs : Img := { h := sh, w := sw, ch := cv.ch, pix := cv.pix }
      let tsl : Img :=
        { h := sh, w := sw, ch := t.ch
          pix := fun r c k => t.pix (r + ay.toNat) (c + ax.toNat) k }
      let b := blendCanvasToSurface opacity cs tsl
      { h := t.h, w := t.w, ch := t.ch
        pix := fun r c k =>
          if ay.toNat ≤ r ∧ r < endY.toNat ∧ ax.toNat ≤ c ∧ c < endX.toNat then
            b.pix (r - ay.toNat) (c - ax.toNat) k
          else t.pix r c k }
    else t

mutual

/-- A render-tree node: relative position, the tile its draw hook produces,
its opacity, and its children. -/
inductive RNode where
  | mk (pos : Int × Int) (canvas : Option Img) (opacity : ℚ) (children : RNodeList)

inductive RNodeList where
  | nil
  | cons (c : RNode) (cs : RNodeList)

end

def RNode.posOf : RNode → Int × Int
  | .mk p _ _ _ => p

mutual

/-- Embedding of `GuiComponent.render(target_surface, render_position)` at a
given anchor: composite the node's own tile via `renderOwn`, then render each
child in order at the anchor offset by the child's relative position. -/
def renderNode : RNode → Img → Int × Int → Img
  | .mk _ cv op kids, t, a => renderKids kids (renderOwn op cv t a.1 a.2) a

/-- The children loop at the tail of `render`. -/
def renderKids : RNodeList → Img → Int × Int → Img
  | .nil, t, _ => t
  | .cons c rest, t, a =>
    renderKids rest (renderNode c t (a.1 + c.posOf.1, a.2 + c.posOf.2)) a

end

/-! ### Claim C2 -/

/-- Claim C2, counterexample: a node with `auto_size` true, no children, and a
fixed integer width/height specification of 50 resolves both dimensions to 50,
not 0 — refuting the claim that every such node resolves to width 0 and
height 0 regardless of the supplied specification. -/
theorem C2_auto_size_zero_cex :
    compWidth (Comp.mk true (.fixed 50) (.fixed 50) (0, 0) .nil) = 50 ∧
    compHeight (Comp.mk true (.fixed 50) (.fixed 50) (0, 0) .nil) = 50 ∧
    (50 : Int) ≠ 0 :=
  ⟨rfl, rfl, by decide⟩

/-- Claim C2, amended: for every node with `auto_size` true and no children,
the resolved width and height equal `_calculate_size` applied to the
specification with children extent 0 — so a fixed integer spec resolves to
itself and a function spec to its value at 0; both dimensions resolve to 0
when the specification is the string "auto". -/
theorem C2_auto_size_amended :
    (∀ (ws hs : SizeSpec) (p : Int × Int),
        compWidth (Comp.mk true ws hs p .nil) = calcSize ws 0 ∧
        compHeight (Comp.mk true ws hs p .nil) = calcSize hs 0) ∧
    (∀ p : Int × Int,
        compWidth (Comp.mk true (.expr "auto") (.expr "auto") p .nil) = 0 ∧
        compHeight (Comp.mk true (.expr "auto") (.expr "auto") p .nil) = 0) :=
  ⟨fun _ _ _ => ⟨rfl, rfl⟩, fun _ => ⟨rfl, rfl⟩⟩

/-! ### Claim C3 -/

/-- Claim C3, counterexample: the grid constructed with rows 3, cols 3,
cell 120 by 100, padding 20 does not have extent 400 by 300 — its height
spec is 3 * 100 + 2 * 20 = 340, not 300. -/
theorem C3_grid_extent_cex :
    ¬ (compWidth (mkGridComp 3 3 120 100 20 (50, 50) .nil) = 400 ∧
       compHeight (mkGridComp 3 3 120 100 20 (50, 50) .nil) = 300) := by
  decide

/-- Claim C3, amended: for a grid constructed with rows 3, cols 3, cell width
120, cell height 100, padding 20, the resolved extent is width 400 and height
340 (for any position and any children: the fixed integer specs are returned
by `_calculate_size` irrespective of the children extent). -/
theorem C3_grid_extent_amended (p : Int × Int) (cs : CompList) :
    compWidth (mkGridComp 3 3 120 100 20 p cs) = 400 ∧
    compHeight (mkGridComp 3 3 120 100 20 p cs) = 340 :=
  ⟨rfl, rfl⟩

/-- Claim C3 amended, witness at a concrete input (the demo grid position,
no children). -/
theorem C3_grid_extent_amended_w :
    compWidth (mkGridComp 3 3 120 100 20 (50, 50) .nil) = 400 ∧
    compHeight (mkGridComp 3 3 120 100 20 (50, 50) .nil) = 340 :=
  C3_grid_extent_amended (50, 50) .nil

/-! ### Claim C4 -/

/-- Claim C10: for every string specification not containing the placeholder
token, `_calculate_size` falls through to its final `return 0`, ignoring both
the string content and the children extent. -/
theorem C10_no_token_returns_zero (s : String) (ct : Int)
    (hc : containsAuto s.toList = false) :
    calcSize (.expr s) ct = 0 := by
  have hs : s ≠ "auto" := by
    intro h
    subst h
    simp [containsAuto] at hc
  have hc2 : containsAuto s.data = false := hc
  simp [calcSize, hs, hc2]

/-- Claim C10, witness: the string "100px" contains no placeholder token and
resolves to 0 at children extent 42. -/
theorem C10_no_token_returns_zero_w :
    containsAuto ("100px").toList = false ∧ calcSize (.expr "100px") 42 = 0 :=
  ⟨by decide, C10_no_token_returns_zero "100px" 42 (by decide)⟩

/-! ### Claim C1 -/

/-- The nine children of the end-to-end example, as abstract identifiers. -/
def gridIds : List (Fin 9) := [0, 1, 2, 3, 4, 5, 6, 7, 8]

/-- A 3 by 3 grid filled by nine `add_child_auto` calls in order. -/
def fullGrid (cw chh p : Int) : GridState (Fin 9) :=
  gridIds.foldl (fun s c => (addChildAuto s c).2) (mkGrid 3 3 cw chh p)

/-- The full 3 by 3 grid after `resize_grid(2, 2)`. -/
def resizedGrid (cw chh p : Int) : GridState (Fin 9) :=
  resizeGrid (fullGrid cw chh p) 2 2

/-- Claim C1, counterexample: in the example configuration (cell 120 by 100,
padding 20), resizing the fully occupied 3 by 3 grid to 2 by 2 leaves five
children attached, not four: the child originally at cell (0, 2) — child 2 —
is still attached, re-placed by the row-major scan. -/
theorem C1_resize_cex :
    (resizedGrid 120 100 20).children.length = 5 ∧
    (2 : Fin 9) ∈ (resizedGrid 120 100 20).children := by
  decide

/-! The attachment and assignment components of a grid state do not depend on
the pixel pitch: we record this as a simulation over the control-flow-relevant
skeleton (rows, cols, children, assignment), which lets the pitch-generic
claim reduce to the concrete example configuration. -/

/-- The fields of a grid state that the grid operations branch on. -/
def skel (g : GridState α) : Int × Int × List α × List (α × Int × Int) :=
  (g.rows, g.cols, g.children, g.gridChildren)

theorem skel_addTo {g1 g2 : GridState α} (c : α) (r k : Int)
    (h : skel g1 = skel g2) :
    (addChildToGrid g1 c r k).1 = (addChildToGrid g2 c r k).1 ∧
    skel (addChildToGrid g1 c r k).2 = skel (addChildToGrid g2 c r k).2 := by
  have h1 : g1.rows = g2.rows := congrArg (fun s => s.1) h
  have h2 : g1.cols = g2.cols := congrArg (fun s => s.2.1) h
  have h3 : g1.children = g2.children := congrArg (fun s => s.2.2.1) h
  have h4 : g1.gridChildren = g2.gridChildren := congrArg (fun s => s.2.2.2) h
  unfold addChildToGrid
  rw [h1, h2]
  by_cases hb : r ≥ g2.rows ∨ k ≥ g2.cols ∨ r < 0 ∨ k < 0
  · simp only [if_pos hb]
    exact ⟨trivial, h⟩
  · simp only [if_neg hb]
    refine ⟨trivial, ?_⟩
    simp [skel, h3, h4]

theorem cellOccupied_skel {g1 g2 : GridState α} (h : skel g1 = skel g2) :
    cellOccupied g1 = cellOccupied g2 := by
  have h4 : g1.gridChildren = g2.gridChildren := congrArg (fun s => s.2.2.2) h
  funext r c
  unfold cellOccupied
  rw [h4]

theorem firstFreeCell_skel {g1 g2 : GridState α} (h : skel g1 = skel g2) :
    firstFreeCell g1 = firstFreeCell g2 := by
  have h1 : g1.rows = g2.rows := congrArg (fun s => s.1) h
  have h2 : g1.cols = g2.cols := congrArg (fun s => s.2.1) h
  unfold firstFreeCell
  rw [h1, h2, cellOccupied_skel h]

theorem skel_addAuto {g1 g2 : GridState α} (c : α) (h : skel g1 = skel g2) :
    (addChildAuto g1 c).1 = (addChildAuto g2 c).1 ∧
    skel (addChildAuto g1 c).2 = skel (addChildAuto g2 c).2 := by
  unfold addChildAuto
  rw [firstFreeCell_skel h]
  cases firstFreeCell g2 with
  | none => exact ⟨rfl, h⟩
  | some rc => exact skel_addTo c rc.1 rc.2 h

theorem skel_removeChildComp {g1 g2 : GridState α} (c : α) (h : skel g1 = skel g2) :
    skel (removeChildComp g1 c) = skel (removeChildComp g2 c) := by
  have h1 : g1.rows = g2.rows := congrArg (fun s => s.1) h
  have h2 : g1.cols = g2.cols := congrArg (fun s => s.2.1) h
  have h3 : g1.children = g2.children := congrArg (fun s => s.2.2.1) h
  have h4 : g1.gridChildren = g2.gridChildren := congrArg (fun s => s.2.2.2) h
  unfold removeChildComp
  rw [h3]
  by_cases hb : c ∈ g2.children
  · simp only [hb, if_true]
    simp [skel, h1, h2, h3, h4]
  · simp only [hb, if_false]
    exact h

theorem skel_resizeStep (rows cols : Int) {g1 g2 : GridState α}
    (e : α × Int × Int) (h : skel g1 = skel g2) :
    skel (resizeStep rows cols g1 e) = skel (resizeStep rows cols g2 e) := by
  unfold resizeStep
  by_cases hb : e.2.1 < rows ∧ e.2.2 < cols
  · simp only [hb, if_true]
    exact (skel_addTo e.1 e.2.1 e.2.2 h).2
  · simp only [hb, if_false]
    obtain ⟨hok, hsk⟩ := skel_addAuto e.1 h
    rcases ha1 : addChildAuto g1 e.1 with ⟨ok1, s1⟩
    rcases ha2 : addChildAuto g2 e.1 with ⟨ok2, s2⟩
    rw [ha1, ha2] at hok hsk
    simp only at hok hsk
    subst hok
    cases ok1
    · exact skel_removeChildComp e.1 hsk
    · exact hsk

theorem skel_foldl {β : Type} (f : GridState α → β → GridState α)
    (hf : ∀ (g1 g2 : GridState α) (x : β), skel g1 = skel g2 → skel (f g1 x) = skel (f g2 x)) :
    ∀ (l : List β) (g1 g2 : GridState α), skel g1 = skel g2 →
      skel (l.foldl f g1) = skel (l.foldl f g2) := by
  intro l
  induction l with
  | nil => intro g1 g2 h; exact h
  | cons x xs ih => intro g1 g2 h; exact ih (f g1 x) (f g2 x) (hf g1 g2 x h)

theorem skel_resizeGrid {g1 g2 : GridState α} (rows cols : Int)
    (h : skel g1 = skel g2) :
    skel (resizeGrid g1 rows cols) = skel (resizeGrid g2 rows cols) := by
  have h3 : g1.children = g2.children := congrArg (fun s => s.2.2.1) h
  have h4 : g1.gridChildren = g2.gridChildren := congrArg (fun s => s.2.2.2) h
  unfold resizeGrid
  rw [h4]
  exact skel_foldl (resizeStep rows cols)
    (fun a b x hx => skel_resizeStep rows cols x hx)
    g2.gridChildren _ _ (by simp [skel, h3])

theorem skel_fullGrid (cw chh p : Int) :
    skel (fullGrid cw chh p) = skel (fullGrid 120 100 20) := by
  unfold fullGrid
  exact skel_foldl _
    (fun a b x hx => (skel_addAuto x hx).2)
    gridIds _ _ rfl

theorem skel_resizedGrid (cw chh p : Int) :
    skel (resizedGrid cw chh p) = skel (resizedGrid 120 100 20) := by
  unfold resizedGrid
  exact skel_resizeGrid 2 2 (skel_fullGrid cw chh p)

/-- Claim C1, amended: for every 3 by 3 grid (any cell size and padding) fully
occupied by nine children placed via `add_child_auto` in row-major order,
`resize_grid(2, 2)` leaves five children attached: the four whose original
row and col are both below 2 keep their original cells, the child originally
at (0, 2) is reassigned by the row-major scan to cell (1, 0) — double-booking
that cell with the child originally there — and the children originally at
(1, 2), (2, 0), (2, 1) and (2, 2) are detached. -/
theorem C1_resize_amended (cw chh p : Int) :
    (fullGrid cw chh p).gridChildren =
      [(0, 0, 0), (1, 0, 1), (2, 0, 2), (3, 1, 0), (4, 1, 1),
       (5, 1, 2), (6, 2, 0), (7, 2, 1), (8, 2, 2)] ∧
    (resizedGrid cw chh p).children = [0, 1, 2, 3, 4] ∧
    (resizedGrid cw chh p).gridChildren =
      [(0, 0, 0), (1, 0, 1), (2, 1, 0), (3, 1, 0), (4, 1, 1)] := by
  have hf := congrArg (fun s => s.2.2.2) (skel_fullGrid cw chh p)
  have hc := congrArg (fun s => s.2.2.1) (skel_resizedGrid cw chh p)
  have hg := congrArg (fun s => s.2.2.2) (skel_resizedGrid cw chh p)
  simp only [skel] at hf hc hg
  refine ⟨?_, ?_, ?_⟩
  · rw [hf]; decide
  · rw [hc]; decide
  · rw [hg]; decide

/-! ### Claim C6 -/

/-- A 2 by 2 grid in which two distinct children were placed at the same cell
(0, 0) via `add_child_to_grid`. -/
def doubleBooked : GridState (Fin 2) :=
  (addChildToGrid (addChildToGrid (mkGrid 2 2 10 10 1) 0 0 0).2 1 0 0).2

/-- Claim C6, counterexample: after two `add_child_to_grid` calls the cell
assignment holds two distinct children at cell (0, 0), refuting the
one-child-per-cell invariant. -/
theorem C6_one_per_cell_cex :
    doubleBooked.gridChildren = [(0, 0, 0), (1, 0, 0)] ∧
    ¬ ∀ e1 ∈ doubleBooked.gridChildren, ∀ e2 ∈ doubleBooked.gridChildren,
        e1.2 = e2.2 → e1.1 = e2.1 := by
  decide

/-- Keys (children) of the grid assignment list. -/
def gcKeys (g : GridState α) : List α := g.gridChildren.map fun e => e.1

theorem gcKeys_nodup_addTo (g : GridState α) (c : α) (row col : Int)
    (h : (gcKeys g).Nodup) : (gcKeys (addChildToGrid g c row col).2).Nodup := by
  unfold addChildToGrid
  by_cases hb : row ≥ g.rows ∨ col ≥ g.cols ∨ row < 0 ∨ col < 0
  · simpa [hb] using h
  · simp only [hb, if_false]
    unfold gcKeys at h ⊢
    simp only [List.map_append]
    rw [List.nodup_append]
    refine ⟨?_, by simp, ?_⟩
    · have h2 : (g.gridChildren.map fun e => e.1).Nodup := h
      exact ((g.gridChildren.filter_sublist).map fun e => e.1).nodup h2
    · intro a ha hb2
      simp only [List.map_cons, List.map_nil, List.mem_singleton] at hb2
      subst hb2
      rcases List.mem_map.mp ha with ⟨e, he, hek⟩
      rcases List.mem_filter.mp he with ⟨_, hne⟩
      exact (of_decide_eq_true hne) hek

theorem gcKeys_nodup_addAuto (g : GridState α) (c : α)
    (h : (gcKeys g).Nodup) : (gcKeys (addChildAuto g c).2).Nodup := by
  unfold addChildAuto
  cases firstFreeCell g with
  | none => simpa using h
  | some rc => simpa using gcKeys_nodup_addTo g c rc.1 rc.2 h

theorem gcKeys_removeChildComp (g : GridState α) (c : α) :
    gcKeys (removeChildComp g c) = gcKeys g := by
  unfold removeChildComp
  by_cases hb : c ∈ g.children <;> simp [hb, gcKeys]

theorem gcKeys_nodup_removeFromGrid (g : GridState α) (c : α)
    (h : (gcKeys g).Nodup) : (gcKeys (removeChildFromGrid g c)).Nodup := by
  unfold removeChildFromGrid
  rw [gcKeys_removeChildComp]
  have h2 : (g.gridChildren.map fun e => e.1).Nodup := h
  exact ((g.gridChildren.filter_sublist).map fun e => e.1).nodup h2

theorem gcKeys_nodup_resizeStep (rows cols : Int) (g : GridState α)
    (e : α × Int × Int) (h : (gcKeys g).Nodup) :
    (gcKeys (resizeStep rows cols g e)).Nodup := by
  unfold resizeStep
  by_cases hb : e.2.1 < rows ∧ e.2.2 < cols
  · simpa [hb] using gcKeys_nodup_addTo g e.1 e.2.1 e.2.2 h
  · simp only [hb, if_false]
    have h1 := gcKeys_nodup_addAuto g e.1 h
    rcases hauto : addChildAuto g e.1 with ⟨ok, g1⟩
    rw [hauto] at h1
    cases ok
    · simpa [gcKeys_removeChildComp] using h1
    · exact h1

theorem foldl_preserve {β γ : Type} (I : β → Prop) (f : β → γ → β)
    (hf : ∀ b x, I b → I (f b x)) :
    ∀ (l : List γ) (b : β), I b → I (l.foldl f b) := by
  intro l
  induction l with
  | nil => intro b hb; exact hb
  | cons x xs ih => intro b hb; exact ih (f b x) (hf b x hb)

theorem gcKeys_nodup_resize (g : GridState α) (rows cols : Int)
    (h : (gcKeys g).Nodup) : (gcKeys (resizeGrid g rows cols)).Nodup := by
  unfold resizeGrid
  exact foldl_preserve (fun s => (gcKeys s).Nodup) (resizeStep rows cols)
    (fun b x hb => gcKeys_nodup_resizeStep rows cols b x hb)
    g.gridChildren _ (by simp [gcKeys])

theorem gcKeys_nodup_applyOp (g : GridState α) (op : GridOp α)
    (h : (gcKeys g).Nodup) : (gcKeys (applyGridOp g op)).Nodup := by
  cases op with
  | addTo c r k => exact gcKeys_nodup_addTo g c r k h
  | addAuto c => exact gcKeys_nodup_addAuto g c h
  | removeFromGrid c => exact gcKeys_nodup_removeFromGrid g c h
  | resize r k => exact gcKeys_nodup_resize g r k h

/-- Claim C6, amended: after every sequence of grid operations
(`add_child_to_grid`, `add_child_auto`, `remove_child_from_grid`,
`resize_grid`) starting from a freshly constructed grid, the cell assignment
maps each child to at most one cell — its entries are keyed uniquely by
child — while a single cell may be assigned to several distinct children
(the counterexample above). -/
theorem C6_assignment_keys_unique {α : Type} [DecidableEq α]
    (rows cols cw chh p : Int) (ops : List (GridOp α)) :
    (gcKeys (applyGridOps (mkGrid rows cols cw chh p) ops)).Nodup := by
  unfold applyGridOps
  exact foldl_preserve (fun s => (gcKeys s).Nodup) applyGridOp
    (fun b x hb => gcKeys_nodup_applyOp b x hb)
    ops _ (by simp [gcKeys, mkGrid])

/-! ### Claim C5 -/

/-- Attaching node 2 to parent 0 and then to parent 1 via `add_child`. -/
def twoParents : Forest := addChildF (addChildF initForest 0 2) 1 2

/-- Claim C5, counterexample: after attaching node 2 to parent 0 and then to
the different parent 1, node 2 sits in both parents' children sequences (the
second attach did not remove it from the old parent), and its back-reference
points at parent 1 while parent 0 still lists it — refuting both the
at-most-one-parent invariant and the claimed removal behaviour. -/
theorem C5_attach_cex :
    twoParents.ch 0 = [2] ∧ twoParents.ch 1 = [2] ∧
    twoParents.par 2 = some 1 ∧ (0 : Nat) ≠ 1 := by
  refine ⟨rfl, rfl, rfl, by decide⟩

theorem updF_append_nodup (s : Forest) (p c : Nat) (hm : c ∉ s.ch p)
    (h : ∀ q, (s.ch q).Nodup) :
    ∀ q, (updF s.ch p (s.ch p ++ [c]) q).Nodup := by
  intro q
  unfold updF
  by_cases hq : q = p
  · subst hq
    rw [if_pos rfl, List.nodup_append]
    refine ⟨h q, List.nodup_singleton c, ?_⟩
    intro a ha hb
    rw [List.mem_singleton] at hb
    subst hb
    exact hm ha
  · simp only [if_neg hq]
    exact h q

theorem chNodup_op (s : Forest) (op : ForestOp) (h : ∀ q, (s.ch q).Nodup) :
    ∀ q, ((applyForestOp s op).ch q).Nodup := by
  cases op with
  | attach p c =>
    show ∀ q, ((addChildF s p c).ch q).Nodup
    unfold addChildF
    by_cases hm : c ∈ s.ch p
    · simpa [hm] using h
    · simp only [if_neg hm]
      exact updF_append_nodup s p c hm h
  | detach p c =>
    show ∀ q, ((removeChildF s p c).ch q).Nodup
    unfold removeChildF
    by_cases hm : c ∈ s.ch p
    · simp only [if_pos hm]
      intro q
      unfold updF
      by_cases hq : q = p
      · subst hq
        rw [if_pos rfl]
        exact (h q).erase c
      · simp only [if_neg hq]
        exact h q
    · simpa [hm] using h
  | gridAttach p c =>
    show ∀ q, ((gridAttachF s p c).ch q).Nodup
    unfold gridAttachF
    by_cases hm : c ∈ s.ch p
    · simpa [hm] using h
    · simp only [if_neg hm]
      exact updF_append_nodup s p c hm h

/-- Claim C5, amended: after every sequence of attach/detach/grid-placement
operations starting from the empty forest, each single parent's children
sequence lists a node at most once (`add_child` is idempotent for the same
parent), but attaching a node that already has a different parent does not
remove it from the old parent's children sequence, so a node can appear under
two parents at once and the back-reference can dangle (the counterexample
above). -/
theorem C5_tree_amended :
    (∀ (ops : List ForestOp) (q : Nat),
        ((applyForestOps initForest ops).ch q).Nodup) ∧
    (∀ (s : Forest) (p c : Nat),
        addChildF (addChildF s p c) p c = addChildF s p c) := by
  constructor
  · intro ops
    exact foldl_preserve (fun s => ∀ q, (s.ch q).Nodup) applyForestOp
      (fun b x hb => chNodup_op b x hb) ops initForest (fun _ => List.nodup_nil)
  · intro s p c
    unfold addChildF
    by_cases hm : c ∈ s.ch p
    · simp [hm]
    · simp [hm, updF]

/-! ### Claim C8 -/

/-- Claim C8: blending a 4-channel source tile whose coverage channel is zero
at every pixel onto a 3-channel target leaves the target byte-for-byte
unchanged — the blend returns the target itself via the all-zero coverage
fast exit. -/
theorem C8_zero_coverage_identity (cs ts : Img) (op : ℚ)
    (h4 : cs.ch = 4) (h3 : ts.ch = 3)
    (hh : 0 < cs.h) (hw : 0 < cs.w)
    (ha : ∀ r < cs.h, ∀ c < cs.w, cs.pix r c 3 = 0) :
    blendCanvasToSurface op cs ts = ts := by
  have hz : allZeroAlpha cs = true := by
    unfold allZeroAlpha
    rw [List.all_eq_true]
    intro r hr
    rw [List.all_eq_true]
    intro c hc
    rw [List.mem_range] at hr
    rw [List.mem_range] at hc
    simp [ha r hr c hc]
  have hA : ¬ (cs.ch = 3 ∧ ts.ch = 3 ∧ cs.h = ts.h ∧ cs.w = ts.w) := by
    rintro ⟨hc3, -⟩
    rw [h4] at hc3
    exact absurd hc3 (by decide)
  unfold blendCanvasToSurface
  rw [if_neg hA, if_pos ⟨h4, h3⟩, if_pos hz]

/-- Claim C8, witness: a 1 by 1 fully transparent tile blended at opacity one
half onto a 2 by 2 target leaves the target unchanged. -/
theorem C8_zero_coverage_identity_w :
    blendCanvasToSurface ((1 : ℚ) / 2)
      (Img.mk 1 1 4 fun _ _ _ => 0) (Img.mk 2 2 3 fun r c k => r + c + k) =
      Img.mk 2 2 3 fun r c k => r + c + k :=
  C8_zero_coverage_identity (Img.mk 1 1 4 fun _ _ _ => 0)
    (Img.mk 2 2 3 fun r c k => r + c + k) ((1 : ℚ) / 2)
    rfl rfl (by decide) (by decide) (by decide)

/-! ### Claim C7 -/

theorem blendPix_opaque (fg bg : Nat) : blendPix 1 255 fg bg = fg := by
  unfold blendPix
  rw [if_neg (by norm_num)]
  have h1 : ((255 : Nat) : ℚ) / 255 = 1 := by norm_num
  rw [h1]
  show (⌊(1 : ℚ) * (fg : ℚ) + (1 - 1) * (bg : ℚ)⌋).toNat = fg
  have h2 : (1 : ℚ) * (fg : ℚ) + (1 - 1) * (bg : ℚ) = (fg : ℚ) := by ring
  rw [h2, Int.floor_natCast, Int.toNat_natCast]

/-- Claim C7: blending a 4-channel tile whose coverage is 255 at every pixel
onto a same-shaped 3-channel target with node opacity 1 is pixel-identical to
the direct opaque copy of the tile's color channels — the fast path that
`_blend_canvas_to_surface` takes for a 3-channel source of the same shape. -/
theorem C7_opaque_blend_refines_copy (cs ts : Img)
    (h4 : cs.ch = 4) (h3 : ts.ch = 3)
    (hh : cs.h = ts.h) (hw : cs.w = ts.w)
    (hth : 0 < ts.h) (htw : 0 < ts.w)
    (ha : ∀ r < cs.h, ∀ c < cs.w, cs.pix r c 3 = 255) :
    blendCanvasToSurface 1 (rgbOf cs) ts = rgbOf cs ∧
    ImgEqOn (blendCanvasToSurface 1 cs ts) (rgbOf cs) := by
  have hch : 0 < cs.h := by omega
  have hcw : 0 < cs.w := by omega
  constructor
  · unfold blendCanvasToSurface
    rw [if_pos ⟨rfl, h3, hh, hw⟩]
  · have hA : ¬ (cs.ch = 3 ∧ ts.ch = 3 ∧ cs.h = ts.h ∧ cs.w = ts.w) := by
      rintro ⟨hc3, -⟩
      rw [h4] at hc3
      exact absurd hc3 (by decide)
    have hz : ¬ (allZeroAlpha cs = true) := by
      unfold allZeroAlpha
      rw [List.all_eq_true]
      intro hall
      have h0r := hall 0 (List.mem_range.mpr hch)
      rw [List.all_eq_true] at h0r
      have h00 := h0r 0 (List.mem_range.mpr hcw)
      rw [ha 0 hch 0 hcw] at h00
      exact absurd h00 (by decide)
    unfold blendCanvasToSurface
    rw [if_neg hA, if_pos ⟨h4, h3⟩, if_neg hz]
    refine ⟨hh.symm, hw.symm, rfl, ?_⟩
    dsimp only
    intro r hr c hc k hk
    have hrcs : r < cs.h := by omega
    have hccs : c < cs.w := by omega
    have hrow : rowHasAlpha cs r = true := by
      unfold rowHasAlpha
      rw [List.any_eq_true]
      refine ⟨0, List.mem_range.mpr hcw, ?_⟩
      simp [ha r hrcs 0 hcw]
    have hcol : colHasAlpha cs c = true := by
      unfold colHasAlpha
      rw [List.any_eq_true]
      refine ⟨0, List.mem_range.mpr hch, ?_⟩
      simp [ha 0 hch c hccs]
    have hbr : inBoundingRect cs r c = true := by
      unfold inBoundingRect
      simp only [Bool.and_eq_true]
      refine ⟨⟨⟨?_, ?_⟩, ?_⟩, ?_⟩ <;> rw [List.any_eq_true]
      · exact ⟨r, List.mem_range.mpr hrcs, by simp [hrow]⟩
      · exact ⟨r, List.mem_range.mpr hrcs, by simp [hrow]⟩
      · exact ⟨c, List.mem_range.mpr hccs, by simp [hcol]⟩
      · exact ⟨c, List.mem_range.mpr hccs, by simp [hcol]⟩
    show (if r < ts.h ∧ c < ts.w ∧ inBoundingRect cs r c = true then
            blendPix 1 (cs.pix r c 3) (cs.pix r c k) (ts.pix r c k)
          else ts.pix r c k) = cs.pix r c k
    rw [if_pos ⟨hr, hc, hbr⟩, ha r hrcs c hccs, blendPix_opaque]

/-- Claim C7, witness: a 1 by 1 fully opaque tile with color value 7 over a
1 by 1 target with value 9 blends to exactly the copied color. -/
theorem C7_opaque_blend_refines_copy_w :
    blendCanvasToSurface 1
        (rgbOf (Img.mk 1 1 4 fun _ _ k => if k = 3 then 255 else 7))
        (Img.mk 1 1 3 fun _ _ _ => 9) =
      rgbOf (Img.mk 1 1 4 fun _ _ k => if k = 3 then 255 else 7) ∧
    ImgEqOn
      (blendCanvasToSurface 1 (Img.mk 1 1 4 fun _ _ k => if k = 3 then 255 else 7)
        (Img.mk 1 1 3 fun _ _ _ => 9))
      (rgbOf (Img.mk 1 1 4 fun _ _ k => if k = 3 then 255 else 7)) :=
  C7_opaque_blend_refines_copy
    (Img.mk 1 1 4 fun _ _ k => if k = 3 then 255 else 7)
    (Img.mk 1 1 3 fun _ _ _ => 9)
    rfl rfl rfl rfl (by decide) (by decide) (by decide)

/-! ### Claim C9 -/

/-- Claim C9: a node whose render anchor lies outside the target bounds
(negative, or at least the target's width/height) composites nothing from its
own tile — the own-tile step returns the target untouched — and rendering such
a node with no children leaves the target buffer unchanged; the embedding is a
total function, mirroring the silent skip in the source. -/
theorem C9_offscreen_anchor_skipped (cv t : Img) (p : Int × Int) (op : ℚ) (ax ay : Int)
    (hout : ax < 0 ∨ ay < 0 ∨ (t.w : Int) ≤ ax ∨ (t.h : Int) ≤ ay) :
    renderNode (.mk p (some cv) op .nil) t (ax, ay) = t ∧
    renderOwn op (some cv) t ax ay = t := by
  have hro : renderOwn op (some cv) t ax ay = t := by
    unfold renderOwn
    dsimp only
    rw [if_neg]
    rintro ⟨hx, hy, hxw, hyh⟩
    rcases hout with h | h | h | h <;> omega
  refine ⟨?_, hro⟩
  show renderKids .nil (renderOwn op (some cv) t ax ay) (ax, ay) = t
  rw [hro]
  rfl

/-- Claim C9, witness: a 1 by 1 tile rendered at anchor (5, 0) against a
2 by 2 target leaves the target unchanged. -/
theorem C9_offscreen_anchor_skipped_w :
    renderNode (.mk (0, 0) (some (Img.mk 1 1 3 fun _ _ _ => 5)) 1 .nil)
        (Img.mk 2 2 3 fun _ _ _ => 0) (5, 0) =
      Img.mk 2 2 3 (fun _ _ _ => 0) ∧
    renderOwn 1 (some (Img.mk 1 1 3 fun _ _ _ => 5))
        (Img.mk 2 2 3 fun _ _ _ => 0) 5 0 =
      Img.mk 2 2 3 (fun _ _ _ => 0) :=
  C9_offscreen_anchor_skipped (Img.mk 1 1 3 fun _ _ _ => 5)
    (Img.mk 2 2 3 fun _ _ _ => 0) (0, 0) 1 5 0 (by decide)

end CV2Viz
